import Mathlib

/-!
Shallow embedding of the core of `src/cellular_simulation.py`: the
neighborhood counter `count_alive_neighbors`, the per-cell rule
`determine_cell_state`, and the transition engine `step_matrix`.

Cells are Python one-character strings, embedded as `Char` ('O' alive,
'.' dead).  A grid is a `List (List Char)`.  Python integer arithmetic is
embedded as `Int`; Python's `%` on a positive modulus agrees with
`Int.emod` (always non-negative).  Python's runtime errors (IndexError on
`matrix[0]` for an empty list, ZeroDivisionError on `% 0`) are embedded
as `none`, so each function returns an `Option`.
-/

/-- `ALIVE = 'O'` (source line 15). -/
def ALIVE : Char := 'O'

/-- `DEAD = '.'` (source line 16). -/
def DEAD : Char := '.'

/-- A rectangular grid with `rows` rows, each row of length `cols`. -/
def isGrid (matrix : List (List Char)) (rows cols : Nat) : Prop :=
  matrix.length = rows ∧ ∀ r ∈ matrix, r.length = cols

instance (matrix : List (List Char)) (rows cols : Nat) :
    Decidable (isGrid matrix rows cols) := by
  unfold isGrid; infer_instance

/-- Python list indexing `l[i]` for the non-negative indices this program
produces: `some` the element when in bounds, `none` for IndexError. -/
def listIdx? (l : List α) (i : Int) : Option α :=
  if h : 0 ≤ i ∧ i.toNat < l.length then some (l.get ⟨i.toNat, h.2⟩) else none

/-- The nine `(r, c)` loop positions of the nested
`for r in range(row - 1, row + 2): for c in range(col - 1, col + 2)`
(source lines 212-213), in iteration order. -/
def allNine (row col : Int) : List (Int × Int) :=
  List.flatMap [row - 1, row, row + 1] fun r =>
    [col - 1, col, col + 1].map fun c => (r, c)

/-- One iteration of the loop body of `count_alive_neighbors`
(source lines 214-223): skip the cell itself (`continue`), wrap both
coordinates with `%`, read the wrapped cell, and bump the count when it
is `ALIVE`. -/
def visitCell (matrix : List (List Char)) (rows cols row col : Int)
    (acc : Nat) (rc : Int × Int) : Option Nat :=
  if rc.1 = row ∧ rc.2 = col then some acc
  else
    (listIdx? matrix (rc.1 % rows)).bind fun rowl =>
      (listIdx? rowl (rc.2 % cols)).bind fun cell =>
        some (if cell = ALIVE then acc + 1 else acc)

/-- `count_alive_neighbors(matrix, row, col)` (source lines 195-225).
`rows = len(matrix)`, `cols = len(matrix[0])` (IndexError when the matrix
is empty), then the 3×3 loop around `(row, col)` accumulating the alive
count; `cols = 0` would make `c % cols` raise ZeroDivisionError. -/
def count_alive_neighbors (matrix : List (List Char)) (row col : Int) :
    Option Nat := do
  let firstRow ← matrix.head?
  if firstRow.length = 0 then none
  else
    (allNine row col).foldlM
      (visitCell matrix (matrix.length : Int) (firstRow.length : Int) row col) 0

/-- `determine_cell_state(matrix, row, col)` (source lines 167-193):
count alive neighbors, then apply the rule to the current cell.  Any cell
value other than `ALIVE` takes the dead branch. -/
def determine_cell_state (matrix : List (List Char)) (row col : Int) :
    Option Char := do
  let alive_neighbors ← count_alive_neighbors matrix row col
  let rowl ← listIdx? matrix row
  let cell ← listIdx? rowl col
  if cell = ALIVE then
    pure (if alive_neighbors = 2 ∨ alive_neighbors = 3 ∨ alive_neighbors = 4
      then ALIVE else DEAD)
  else
    pure (if 0 < alive_neighbors ∧ alive_neighbors % 2 = 0 then ALIVE else DEAD)

/-- Sequence a fallible function over a list, left to right, stopping at
the first `none` — the effect of a Python `for` loop whose body may
raise. -/
def mapOption (f : α → Option β) : List α → Option (List β)
  | [] => some []
  | a :: l => do
    let b ← f a
    let bs ← mapOption f l
    pure (b :: bs)

/-- `step_matrix(matrix)` (source lines 146-165): `rows = len(matrix)`,
`cols = len(matrix[0])` (IndexError when empty), then a fresh matrix
whose `(row, col)` entry is `determine_cell_state(matrix, row, col)`.
The Python builds `new_matrix` pre-filled with `DEAD` and assigns every
in-bounds position exactly once in row-major order, which is the
comprehension below. -/
def step_matrix (matrix : List (List Char)) : Option (List (List Char)) := do
  let firstRow ← matrix.head?
  mapOption
    (fun row : Nat => mapOption
      (fun col : Nat => determine_cell_state matrix (row : Int) (col : Int))
      (List.range firstRow.length))
    (List.range matrix.length)

/-- Iterate `step_matrix` `n` times. -/
def stepN : Nat → List (List Char) → Option (List (List Char))
  | 0, g => some g
  | n + 1, g => (step_matrix g).bind (stepN n)

/-- Total read of cell `(r, c)` of a grid (defaulting to `DEAD` out of
bounds), used to state results about grids. -/
def cellAt (matrix : List (List Char)) (r c : Nat) : Char :=
  (matrix.getD r []).getD c DEAD

/-- The transition rule of `determine_cell_state` as a pure function of
the current cell value and the alive-neighbor count. -/
def nextUnit (cur : Char) (n : Nat) : Char :=
  if cur = ALIVE then (if n = 2 ∨ n = 3 ∨ n = 4 then ALIVE else DEAD)
  else (if 0 < n ∧ n % 2 = 0 then ALIVE else DEAD)

/-- The alive-neighbor count as a pure function: the number of non-center
loop positions whose wrapped cell is `ALIVE`. -/
def countAliveOffsets (g : List (List Char)) (rows cols : Nat)
    (row col : Int) : Nat :=
  ((allNine row col).filter fun rc => !(rc.1 == row && rc.2 == col)).countP
    fun rc =>
      cellAt g ((rc.1 % (rows : Int)).toNat) ((rc.2 % (cols : Int)).toNat)
        == ALIVE

/-- The next grid as a pure function. -/
def stepPure (g : List (List Char)) (rows cols : Nat) : List (List Char) :=
  (List.range rows).map fun r => (List.range cols).map fun c =>
    nextUnit (cellAt g r c) (countAliveOffsets g rows cols (r : Int) (c : Int))

/-- Modelled from the spec, for the refinement claim about the counter:
the eight offsets `(-1,-1)` through `(1,1)` excluding `(0,0)`. -/
def specOffsets : List (Int × Int) :=
  (List.flatMap [-1, 0, 1] fun dr =>
    [-1, 0, 1].map fun dc => ((dr : Int), (dc : Int))).filter
    fun d => !(d.1 == 0 && d.2 == 0)

/-- Modelled from the spec: the number of offsets `(dr, dc)` in
`{-1,0,1}×{-1,0,1} \ {(0,0)}` such that the cell at the independently
wrapped coordinate `((row + dr) mod rows, (col + dc) mod cols)` is alive. -/
def specNeighborCount (g : List (List Char)) (rows cols : Nat)
    (row col : Int) : Nat :=
  specOffsets.countP fun d =>
    cellAt g (((row + d.1) % (rows : Int)).toNat)
      (((col + d.2) % (cols : Int)).toNat) == ALIVE

/-- 3×3 grid with only cell `(0, 0)` alive (spec §8 regression case). -/
def cornerGrid : List (List Char) :=
  [[ALIVE, DEAD, DEAD], [DEAD, DEAD, DEAD], [DEAD, DEAD, DEAD]]

/-- 3×3 grid whose row 0 is `OOO` and rows 1-2 are `...` (spec §8
end-to-end scenario). -/
def topRowGrid : List (List Char) :=
  [[ALIVE, ALIVE, ALIVE], [DEAD, DEAD, DEAD], [DEAD, DEAD, DEAD]]

/-- The 1×1 grid whose single cell is alive. -/
def oneGrid : List (List Char) := [[ALIVE]]

/-! ## Basic lemmas about indexing and grids -/

lemma getD_eq_getElem {α : Type} (l : List α) (i : Nat) (d : α)
    (h : i < l.length) : l.getD i d = l[i] := by
  rw [List.getD_eq_getElem?_getD, List.getElem?_eq_getElem h]
  rfl

lemma listIdx?_eq {α : Type} (l : List α) (i : Int) (h0 : 0 ≤ i)
    (h1 : i.toNat < l.length) (d : α) :
    listIdx? l i = some (l.getD i.toNat d) := by
  unfold listIdx?
  rw [dif_pos ⟨h0, h1⟩]
  congr 1
  rw [getD_eq_getElem l i.toNat d h1]
  rfl

lemma row_length {g : List (List Char)} {rows cols : Nat}
    (hg : isGrid g rows cols) {i : Nat} (hi : i < rows) :
    (g.getD i []).length = cols := by
  have hl : i < g.length := by rw [hg.1]; exact hi
  rw [getD_eq_getElem g i [] hl]
  exact hg.2 _ (List.getElem_mem hl)

lemma cellAt_mem_row {g : List (List Char)} {rows cols : Nat}
    (hg : isGrid g rows cols) {i j : Nat} (hi : i < rows) (hj : j < cols) :
    cellAt g i j ∈ g.getD i [] := by
  have hj2 : j < (g.getD i []).length := by rw [row_length hg hi]; exact hj
  unfold cellAt
  rw [getD_eq_getElem _ j DEAD hj2]
  exact List.getElem_mem hj2

lemma cellAt_row_mem {g : List (List Char)} {rows cols : Nat}
    (hg : isGrid g rows cols) {i : Nat} (hi : i < rows) :
    g.getD i [] ∈ g := by
  have hl : i < g.length := by rw [hg.1]; exact hi
  rw [getD_eq_getElem g i [] hl]
  exact List.getElem_mem hl

/-! ## The neighborhood counter computes `countAliveOffsets` -/

lemma visitCell_eq {g : List (List Char)} {rows cols : Nat}
    (hg : isGrid g rows cols) (h1 : 0 < rows) (h2 : 0 < cols)
    (row col : Int) (acc : Nat) (rc : Int × Int)
    (hne : ¬(rc.1 = row ∧ rc.2 = col)) :
    visitCell g (rows : Int) (cols : Int) row col acc rc =
      some (if cellAt g ((rc.1 % (rows : Int)).toNat)
          ((rc.2 % (cols : Int)).toNat) = ALIVE then acc + 1 else acc) := by
  have hrne : (rows : Int) ≠ 0 := by exact_mod_cast h1.ne'
  have hcne : (cols : Int) ≠ 0 := by exact_mod_cast h2.ne'
  have hr0 : 0 ≤ rc.1 % (rows : Int) := Int.emod_nonneg _ hrne
  have hrlt : rc.1 % (rows : Int) < (rows : Int) :=
    Int.emod_lt_of_pos _ (by exact_mod_cast h1)
  have hrn : (rc.1 % (rows : Int)).toNat < g.length := by rw [hg.1]; omega
  have e1 : listIdx? g (rc.1 % (rows : Int)) =
      some (g.getD (rc.1 % (rows : Int)).toNat []) := listIdx?_eq _ _ hr0 hrn []
  have hc0 : 0 ≤ rc.2 % (cols : Int) := Int.emod_nonneg _ hcne
  have hclt : rc.2 % (cols : Int) < (cols : Int) :=
    Int.emod_lt_of_pos _ (by exact_mod_cast h2)
  have hrowlen : (g.getD (rc.1 % (rows : Int)).toNat []).length = cols :=
    row_length hg (by omega)
  have hcn : (rc.2 % (cols : Int)).toNat <
      (g.getD (rc.1 % (rows : Int)).toNat []).length := by omega
  have e2 : listIdx? (g.getD (rc.1 % (rows : Int)).toNat [])
        (rc.2 % (cols : Int)) =
      some ((g.getD (rc.1 % (rows : Int)).toNat []).getD
        (rc.2 % (cols : Int)).toNat DEAD) := listIdx?_eq _ _ hc0 hcn DEAD
  unfold visitCell
  rw [if_neg hne, e1, Option.some_bind, e2, Option.some_bind]
  rfl

lemma foldlM_visitCell {g : List (List Char)} {rows cols : Nat}
    (hg : isGrid g rows cols) (h1 : 0 < rows) (h2 : 0 < cols)
    (row col : Int) (l : List (Int × Int)) (acc : Nat) :
    l.foldlM (visitCell g (rows : Int) (cols : Int) row col) acc =
      some (acc + l.countP fun rc =>
        !(rc.1 == row && rc.2 == col) &&
          (cellAt g ((rc.1 % (rows : Int)).toNat)
            ((rc.2 % (cols : Int)).toNat) == ALIVE)) := by
  induction l generalizing acc with
  | nil => simp [List.foldlM]
  | cons a l ih =>
    rw [List.foldlM_cons]
    by_cases hc : a.1 = row ∧ a.2 = col
    · have hv : visitCell g (rows : Int) (cols : Int) row col acc a = some acc := by
        unfold visitCell; rw [if_pos hc]
      rw [hv]
      show l.foldlM _ acc = _
      rw [ih acc]
      congr 1
      rw [List.countP_cons]
      have hpa : (!(a.1 == row && a.2 == col) &&
          (cellAt g ((a.1 % (rows : Int)).toNat)
            ((a.2 % (cols : Int)).toNat) == ALIVE)) = false := by
        simp [hc.1, hc.2]
      rw [hpa]
      simp
    · rw [visitCell_eq hg h1 h2 row col acc a hc]
      show l.foldlM _ _ = _
      rw [ih]
      congr 1
      rw [List.countP_cons]
      have hne1 : (a.1 == row && a.2 == col) = false := by
        rcases not_and_or.mp hc with h | h
        · simp [beq_eq_false_iff_ne.mpr h]
        · simp [beq_eq_false_iff_ne.mpr h]
      by_cases hcell : cellAt g ((a.1 % (rows : Int)).toNat)
          ((a.2 % (cols : Int)).toNat) = ALIVE
      · rw [if_pos hcell]
        have hpa : (!(a.1 == row && a.2 == col) &&
            (cellAt g ((a.1 % (rows : Int)).toNat)
              ((a.2 % (cols : Int)).toNat) == ALIVE)) = true := by
          rw [hne1, beq_iff_eq.mpr hcell]
          rfl
        simp only [hpa, if_true]
        omega
      · rw [if_neg hcell]
        have hpa : (!(a.1 == row && a.2 == col) &&
            (cellAt g ((a.1 % (rows : Int)).toNat)
              ((a.2 % (cols : Int)).toNat) == ALIVE)) = false := by
          rw [hne1, beq_eq_false_iff_ne.mpr hcell]
          rfl
        simp only [hpa, Bool.false_eq_true, if_false]
        omega

lemma count_alive_neighbors_eq {g : List (List Char)} {rows cols : Nat}
    (hg : isGrid g rows cols) (h1 : 0 < rows) (h2 : 0 < cols)
    (row col : Int) :
    count_alive_neighbors g row col =
      some (countAliveOffsets g rows cols row col) := by
  obtain ⟨g0, gs, rfl⟩ : ∃ g0 gs, g = g0 :: gs := by
    cases g with
    | nil =>
      exfalso
      have := hg.1
      simp at this
      omega
    | cons a l => exact ⟨a, l, rfl⟩
  have hlen0 : g0.length = cols := hg.2 g0 (by simp)
  have hlg : (g0 :: gs).length = rows := hg.1
  unfold count_alive_neighbors
  rw [List.head?_cons, Option.bind_eq_bind, Option.some_bind,
    if_neg (by omega), hlg, hlen0,
    foldlM_visitCell hg h1 h2 row col (allNine row col) 0]
  congr 1
  rw [Nat.zero_add, countAliveOffsets, List.countP_filter]
  refine List.countP_congr fun a _ => ?_
  constructor
  · intro h
    simp only [Bool.and_eq_true] at h ⊢
    exact ⟨h.2, h.1⟩
  · intro h
    simp only [Bool.and_eq_true] at h ⊢
    exact ⟨h.2, h.1⟩

/-! ## The eight non-center loop positions, explicitly -/

lemma allNine_filter (row col : Int) :
    (allNine row col).filter (fun rc => !(rc.1 == row && rc.2 == col)) =
      [(row - 1, col - 1), (row - 1, col), (row - 1, col + 1),
       (row, col - 1), (row, col + 1),
       (row + 1, col - 1), (row + 1, col), (row + 1, col + 1)] := by
  have e1 : ((row - 1 : Int) == row) = false := beq_eq_false_iff_ne.mpr (by omega)
  have e2 : ((row + 1 : Int) == row) = false := beq_eq_false_iff_ne.mpr (by omega)
  have e3 : ((col - 1 : Int) == col) = false := beq_eq_false_iff_ne.mpr (by omega)
  have e4 : ((col + 1 : Int) == col) = false := beq_eq_false_iff_ne.mpr (by omega)
  simp [allNine, List.filter, e1, e2, e3, e4]

/-! ## The per-cell rule computes `nextUnit` -/

lemma determine_cell_state_eq {g : List (List Char)} {rows cols : Nat}
    (hg : isGrid g rows cols) (h1 : 0 < rows) (h2 : 0 < cols)
    (row col : Int) (hr0 : 0 ≤ row) (hrlt : row < (rows : Int))
    (hc0 : 0 ≤ col) (hclt : col < (cols : Int)) :
    determine_cell_state g row col =
      some (nextUnit (cellAt g row.toNat col.toNat)
        (countAliveOffsets g rows cols row col)) := by
  have hrn : row.toNat < g.length := by rw [hg.1]; omega
  have e1 : listIdx? g row = some (g.getD row.toNat []) :=
    listIdx?_eq _ _ hr0 hrn []
  have hrowlen : (g.getD row.toNat []).length = cols :=
    row_length hg (by omega)
  have hcn : col.toNat < (g.getD row.toNat []).length := by omega
  have e2 : listIdx? (g.getD row.toNat []) col =
      some ((g.getD row.toNat []).getD col.toNat DEAD) :=
    listIdx?_eq _ _ hc0 hcn DEAD
  unfold determine_cell_state
  rw [count_alive_neighbors_eq hg h1 h2 row col, Option.bind_eq_bind,
    Option.some_bind, e1, Option.bind_eq_bind, Option.some_bind, e2,
    Option.bind_eq_bind, Option.some_bind]
  unfold nextUnit cellAt
  by_cases hcell : (g.getD row.toNat []).getD col.toNat DEAD = ALIVE
  · rw [if_pos hcell, if_pos hcell]
    rfl
  · rw [if_neg hcell, if_neg hcell]
    rfl

lemma determine_cell_state_natEq {g : List (List Char)} {rows cols : Nat}
    (hg : isGrid g rows cols) (h1 : 0 < rows) (h2 : 0 < cols)
    (r c : Nat) (hr : r < rows) (hc : c < cols) :
    determine_cell_state g (r : Int) (c : Int) =
      some (nextUnit (cellAt g r c)
        (countAliveOffsets g rows cols (r : Int) (c : Int))) := by
  have h := determine_cell_state_eq hg h1 h2 (r : Int) (c : Int)
    (by omega) (by exact_mod_cast hr) (by omega) (by exact_mod_cast hc)
  rwa [Int.toNat_natCast, Int.toNat_natCast] at h

/-! ## The transition engine computes `stepPure` -/

lemma mapOption_eq_some {α β : Type} (f : α → Option β) (gf : α → β)
    (l : List α) (h : ∀ a ∈ l, f a = some (gf a)) :
    mapOption f l = some (l.map gf) := by
  induction l with
  | nil => rfl
  | cons a l ih =>
    unfold mapOption
    rw [h a (List.mem_cons_self a l), Option.bind_eq_bind, Option.some_bind,
      ih (fun b hb => h b (List.mem_cons_of_mem a hb)), Option.bind_eq_bind,
      Option.some_bind]
    rfl

lemma step_matrix_eq {g : List (List Char)} {rows cols : Nat}
    (hg : isGrid g rows cols) (h1 : 0 < rows) (h2 : 0 < cols) :
    step_matrix g = some (stepPure g rows cols) := by
  obtain ⟨g0, gs, rfl⟩ : ∃ g0 gs, g = g0 :: gs := by
    cases g with
    | nil =>
      exfalso
      have := hg.1
      simp at this
      omega
    | cons a l => exact ⟨a, l, rfl⟩
  have hlen0 : g0.length = cols := hg.2 g0 (by simp)
  have hlg : (g0 :: gs).length = rows := hg.1
  unfold step_matrix
  rw [List.head?_cons, Option.bind_eq_bind, Option.some_bind, hlg, hlen0]
  unfold stepPure
  refine mapOption_eq_some _ _ _ fun r hr => ?_
  refine mapOption_eq_some _ _ _ fun c hc => ?_
  exact determine_cell_state_natEq hg h1 h2 r c
    (List.mem_range.mp hr) (List.mem_range.mp hc)

lemma cellAt_stepPure {g : List (List Char)} {rows cols : Nat}
    {r c : Nat} (hr : r < rows) (hc : c < cols) :
    cellAt (stepPure g rows cols) r c =
      nextUnit (cellAt g r c)
        (countAliveOffsets g rows cols (r : Int) (c : Int)) := by
  show ((stepPure g rows cols).getD r []).getD c DEAD = _
  have hr2 : r < (stepPure g rows cols).length := by
    simpa [stepPure] using hr
  have h1 : (stepPure g rows cols).getD r [] = (List.range cols).map fun c =>
      nextUnit (cellAt g r c)
        (countAliveOffsets g rows cols (r : Int) (c : Int)) := by
    rw [getD_eq_getElem _ r [] hr2]
    simp [stepPure]
  rw [h1]
  have hc2 : c < ((List.range cols).map fun c =>
      nextUnit (cellAt g r c)
        (countAliveOffsets g rows cols (r : Int) (c : Int))).length := by
    simpa using hc
  rw [getD_eq_getElem _ c DEAD hc2]
  simp

lemma isGrid_stepPure (g : List (List Char)) (rows cols : Nat) :
    isGrid (stepPure g rows cols) rows cols := by
  constructor
  · simp [stepPure]
  · intro r hr
    simp only [stepPure, List.mem_map] at hr
    obtain ⟨i, _, rfl⟩ := hr
    simp

/-! ## The counter agrees with the spec's offset formulation -/

lemma countAliveOffsets_eq_spec (g : List (List Char)) (rows cols : Nat)
    (row col : Int) :
    countAliveOffsets g rows cols row col =
      specNeighborCount g rows cols row col := by
  have hs : specOffsets =
      [((-1 : Int), (-1 : Int)), (-1, 0), (-1, 1), (0, -1), (0, 1),
       (1, -1), (1, 0), (1, 1)] := by decide
  have e1 : row + -1 = row - 1 := by ring
  have e2 : col + -1 = col - 1 := by ring
  have e3 : row + 0 = row := by ring
  have e4 : col + 0 = col := by ring
  rw [countAliveOffsets, allNine_filter, specNeighborCount, hs]
  simp only [List.countP_cons, List.countP_nil, e1, e2, e3, e4]

/-! ## All-dead grids -/

lemma cellAt_allDead {g : List (List Char)} {rows cols : Nat}
    (hg : isGrid g rows cols) (hd : ∀ r ∈ g, ∀ ch ∈ r, ch = DEAD)
    {i j : Nat} (hi : i < rows) (hj : j < cols) :
    cellAt g i j = DEAD :=
  hd _ (cellAt_row_mem hg hi) _ (cellAt_mem_row hg hi hj)

lemma countAliveOffsets_allDead {g : List (List Char)} {rows cols : Nat}
    (hg : isGrid g rows cols) (h1 : 0 < rows) (h2 : 0 < cols)
    (hd : ∀ r ∈ g, ∀ ch ∈ r, ch = DEAD) (row col : Int) :
    countAliveOffsets g rows cols row col = 0 := by
  rw [countAliveOffsets, List.countP_eq_zero]
  intro a _
  have hrne : (rows : Int) ≠ 0 := by exact_mod_cast h1.ne'
  have hcne : (cols : Int) ≠ 0 := by exact_mod_cast h2.ne'
  have hi : (a.1 % (rows : Int)).toNat < rows := by
    have h0 := Int.emod_nonneg a.1 hrne
    have hlt := Int.emod_lt_of_pos a.1 (b := (rows : Int)) (by exact_mod_cast h1)
    omega
  have hj : (a.2 % (cols : Int)).toNat < cols := by
    have h0 := Int.emod_nonneg a.2 hcne
    have hlt := Int.emod_lt_of_pos a.2 (b := (cols : Int)) (by exact_mod_cast h2)
    omega
  rw [cellAt_allDead hg hd hi hj]
  decide

lemma nextUnit_dead_zero : nextUnit DEAD 0 = DEAD := by decide

lemma stepPure_allDead {g : List (List Char)} {rows cols : Nat}
    (hg : isGrid g rows cols) (h1 : 0 < rows) (h2 : 0 < cols)
    (hd : ∀ r ∈ g, ∀ ch ∈ r, ch = DEAD) :
    stepPure g rows cols = g := by
  refine List.ext_getElem (by simp [stepPure, hg.1]) fun i hi1 hi2 => ?_
  have hirows : i < rows := by simpa [stepPure] using hi1
  have hstep : (stepPure g rows cols)[i] = (List.range cols).map fun c =>
      nextUnit (cellAt g i c)
        (countAliveOffsets g rows cols (i : Int) (c : Int)) := by
    simp [stepPure]
  rw [hstep]
  have hgilen : g[i].length = cols := hg.2 _ (List.getElem_mem hi2)
  refine List.ext_getElem (by simp [hgilen]) fun j hj1 hj2 => ?_
  have hjc : j < cols := by simpa using hj1
  simp only [List.getElem_map, List.getElem_range]
  rw [countAliveOffsets_allDead hg h1 h2 hd,
    cellAt_allDead hg hd hirows hjc, nextUnit_dead_zero]
  exact (hd _ (List.getElem_mem hi2) _ (List.getElem_mem hj2)).symm

/-! ## The rule only ever produces the two cell states -/

lemma nextUnit_two_valued (cur : Char) (n : Nat) :
    nextUnit cur n = ALIVE ∨ nextUnit cur n = DEAD := by
  unfold nextUnit
  split
  · split
    · exact Or.inl rfl
    · exact Or.inr rfl
  · split
    · exact Or.inl rfl
    · exact Or.inr rfl

lemma stepPure_two_valued (g : List (List Char)) (rows cols : Nat) :
    ∀ r ∈ stepPure g rows cols, ∀ ch ∈ r, ch = ALIVE ∨ ch = DEAD := by
  intro r hr ch hch
  simp only [stepPure, List.mem_map] at hr
  obtain ⟨i, _, rfl⟩ := hr
  simp only [List.mem_map] at hch
  obtain ⟨j, _, rfl⟩ := hch
  exact nextUnit_two_valued _ _

lemma stepN_two_valued {rows cols : Nat} (h1 : 0 < rows) (h2 : 0 < cols) :
    ∀ (n : Nat) (g g2 : List (List Char)), isGrid g rows cols →
      stepN (n + 1) g = some g2 →
      ∀ r ∈ g2, ∀ ch ∈ r, ch = ALIVE ∨ ch = DEAD := by
  intro n
  induction n with
  | zero =>
    intro g g2 hg hstep
    rw [stepN, step_matrix_eq hg h1 h2, Option.some_bind, stepN] at hstep
    rw [← Option.some.inj hstep]
    exact stepPure_two_valued g rows cols
  | succ n ih =>
    intro g g2 hg hstep
    rw [stepN, step_matrix_eq hg h1 h2, Option.some_bind] at hstep
    exact ih (stepPure g rows cols) g2 (isGrid_stepPure g rows cols) hstep

/-! ## Claim theorems -/

/-- C1: for every rectangular grid with `rows, cols ≥ 1` and in-bounds
`(row, col)`, the cell at `(row, col)` of `step(g)` is computed from the
input snapshot alone: an `ALIVE` cell stays `ALIVE` iff its count is 2, 3
or 4, otherwise `DEAD`; a non-alive cell becomes `ALIVE` iff its count is
positive and even, otherwise `DEAD`.  No other transition exists. -/
theorem C1_transition_rule (g : List (List Char)) (rows cols row col : Nat)
    (hg : isGrid g rows cols) (h1 : 1 ≤ rows) (h2 : 1 ≤ cols)
    (hr : row < rows) (hc : col < cols) :
    ∃ g2 n, step_matrix g = some g2 ∧
      count_alive_neighbors g (row : Int) (col : Int) = some n ∧
      cellAt g2 row col =
        (if cellAt g row col = ALIVE
          then (if n = 2 ∨ n = 3 ∨ n = 4 then ALIVE else DEAD)
          else (if 0 < n ∧ n % 2 = 0 then ALIVE else DEAD)) := by
  refine ⟨stepPure g rows cols,
    countAliveOffsets g rows cols (row : Int) (col : Int),
    step_matrix_eq hg h1 h2, count_alive_neighbors_eq hg h1 h2 _ _, ?_⟩
  rw [cellAt_stepPure hr hc]
  rfl

theorem C1_transition_rule_witness :
    ∃ g2 n, step_matrix cornerGrid = some g2 ∧
      count_alive_neighbors cornerGrid ((1 : Nat) : Int) ((1 : Nat) : Int) =
        some n ∧
      cellAt g2 1 1 =
        (if cellAt cornerGrid 1 1 = ALIVE
          then (if n = 2 ∨ n = 3 ∨ n = 4 then ALIVE else DEAD)
          else (if 0 < n ∧ n % 2 = 0 then ALIVE else DEAD)) :=
  C1_transition_rule cornerGrid 3 3 1 1 (by decide) (by decide) (by decide)
    (by decide) (by decide)

/-- C2: for every rectangular grid with `rows, cols ≥ 1` and in-bounds
`(row, col)`, `count_alive_neighbors` returns exactly the number of
offsets `(dr, dc)` in `{-1,0,1}×{-1,0,1}` minus `(0,0)` whose
independently wrapped cell `((row+dr) mod rows, (col+dc) mod cols)` is
alive, with the non-negative modulo.  Purity is inherent to the
functional embedding: the result is a function of the arguments alone. -/
theorem C2_neighbor_count_spec (g : List (List Char)) (rows cols row col : Nat)
    (hg : isGrid g rows cols) (h1 : 1 ≤ rows) (h2 : 1 ≤ cols)
    (hr : row < rows) (hc : col < cols) :
    count_alive_neighbors g (row : Int) (col : Int) =
      some (specNeighborCount g rows cols (row : Int) (col : Int)) := by
  rw [count_alive_neighbors_eq hg h1 h2, countAliveOffsets_eq_spec]

theorem C2_neighbor_count_spec_witness :
    count_alive_neighbors cornerGrid ((2 : Nat) : Int) ((2 : Nat) : Int) =
      some (specNeighborCount cornerGrid 3 3 ((2 : Nat) : Int)
        ((2 : Nat) : Int)) :=
  C2_neighbor_count_spec cornerGrid 3 3 2 2 (by decide) (by decide) (by decide)
    (by decide) (by decide)

/-- C3: for every rectangular grid with `rows, cols ≥ 1`, `step` succeeds
and its output has the same number of rows, and every output row has
length `cols` — the output is rectangular with identical dimensions. -/
theorem C3_dimension_preservation (g : List (List Char)) (rows cols : Nat)
    (hg : isGrid g rows cols) (h1 : 1 ≤ rows) (h2 : 1 ≤ cols) :
    ∃ g2, step_matrix g = some g2 ∧ isGrid g2 rows cols :=
  ⟨stepPure g rows cols, step_matrix_eq hg h1 h2, isGrid_stepPure g rows cols⟩

theorem C3_dimension_preservation_witness :
    ∃ g2, step_matrix cornerGrid = some g2 ∧ isGrid g2 3 3 :=
  C3_dimension_preservation cornerGrid 3 3 (by decide) (by decide) (by decide)

/-- C5: for the 3×3 grid with exactly cell `(0, 0)` alive, the neighbor
count at `(2, 2)` is 1: the offset `(1, 1)` wraps to `(0, 0)`. -/
theorem C5_wraparound_regression :
    count_alive_neighbors cornerGrid 2 2 = some 1 := by decide

/-- C6: the 3×3 grid with row 0 `OOO` and rows 1-2 `...` is a fixed point
of one `step`: each alive cell of row 0 has exactly 2 alive neighbors and
survives, and every dead cell has exactly 3 alive neighbors (odd), so it
stays dead. -/
theorem C6_toprow_fixed_point :
    step_matrix topRowGrid = some topRowGrid ∧
    count_alive_neighbors topRowGrid 0 0 = some 2 ∧
    count_alive_neighbors topRowGrid 0 1 = some 2 ∧
    count_alive_neighbors topRowGrid 0 2 = some 2 ∧
    count_alive_neighbors topRowGrid 1 0 = some 3 ∧
    count_alive_neighbors topRowGrid 1 1 = some 3 ∧
    count_alive_neighbors topRowGrid 1 2 = some 3 ∧
    count_alive_neighbors topRowGrid 2 0 = some 3 ∧
    count_alive_neighbors topRowGrid 2 1 = some 3 ∧
    count_alive_neighbors topRowGrid 2 2 = some 3 := by decide

/-- C7: every all-dead rectangular grid with `rows, cols ≥ 1` is a fixed
point of `step`: every count is 0, so the birth condition (positive even
count) never fires. -/
theorem C7_all_dead_fixed_point (g : List (List Char)) (rows cols : Nat)
    (hg : isGrid g rows cols) (h1 : 1 ≤ rows) (h2 : 1 ≤ cols)
    (hd : ∀ r ∈ g, ∀ ch ∈ r, ch = DEAD) :
    step_matrix g = some g := by
  rw [step_matrix_eq hg h1 h2, stepPure_allDead hg h1 h2 hd]

theorem C7_all_dead_fixed_point_witness :
    step_matrix [[DEAD, DEAD], [DEAD, DEAD]] = some [[DEAD, DEAD], [DEAD, DEAD]] :=
  C7_all_dead_fixed_point [[DEAD, DEAD], [DEAD, DEAD]] 2 2 (by decide)
    (by decide) (by decide) (by decide)

/-- C8: for every rectangular grid with `rows, cols ≥ 1` and in-bounds
coordinate, the neighbor count is in `[0, 8]` (it is a `Nat`, so only the
upper bound is non-trivial). -/
theorem C8_count_bounds (g : List (List Char)) (rows cols row col : Nat)
    (hg : isGrid g rows cols) (h1 : 1 ≤ rows) (h2 : 1 ≤ cols)
    (hr : row < rows) (hc : col < cols) :
    ∃ n, count_alive_neighbors g (row : Int) (col : Int) = some n ∧ n ≤ 8 := by
  refine ⟨_, count_alive_neighbors_eq hg h1 h2 _ _, ?_⟩
  rw [countAliveOffsets, allNine_filter]
  exact (List.countP_le_length _).trans (by simp)

theorem C8_count_bounds_witness :
    ∃ n, count_alive_neighbors cornerGrid ((0 : Nat) : Int)
      ((0 : Nat) : Int) = some n ∧ n ≤ 8 :=
  C8_count_bounds cornerGrid 3 3 0 0 (by decide) (by decide) (by decide)
    (by decide) (by decide)

/-- C9: under the precondition of a rectangular grid with
`rows, cols ≥ 1` (and in-bounds coordinates for the counter and the
per-cell rule), `step_matrix`, `count_alive_neighbors` and
`determine_cell_state` always succeed — no error branch (`none`) is
reachable. -/
theorem C9_no_failure (g : List (List Char)) (rows cols : Nat)
    (hg : isGrid g rows cols) (h1 : 1 ≤ rows) (h2 : 1 ≤ cols) :
    (step_matrix g).isSome = true ∧
    ∀ row col : Nat, row < rows → col < cols →
      (count_alive_neighbors g (row : Int) (col : Int)).isSome = true ∧
      (determine_cell_state g (row : Int) (col : Int)).isSome = true := by
  refine ⟨by rw [step_matrix_eq hg h1 h2]; rfl, fun row col hr hc => ⟨?_, ?_⟩⟩
  · rw [count_alive_neighbors_eq hg h1 h2]; rfl
  · rw [determine_cell_state_natEq hg h1 h2 row col hr hc]; rfl

theorem C9_no_failure_witness :
    (step_matrix cornerGrid).isSome = true ∧
    (count_alive_neighbors cornerGrid ((0 : Nat) : Int)
      ((0 : Nat) : Int)).isSome = true :=
  ⟨(C9_no_failure cornerGrid 3 3 (by decide) (by decide) (by decide)).1,
   ((C9_no_failure cornerGrid 3 3 (by decide) (by decide) (by decide)).2
      0 0 (by decide) (by decide)).1⟩

/-- 2×2 grid holding characters other than the two cell states, used to
exercise the rule on arbitrary input characters. -/
def mixedGrid : List (List Char) := [['X', ALIVE], ['A', DEAD]]

/-- C10: for every rectangular input grid — whatever characters its
cells hold — every cell of any `n ≥ 1`-fold iterate of `step` is exactly
`ALIVE` or `DEAD`, and `determine_cell_state` only ever returns `ALIVE`
or `DEAD`: the two-valued invariant is established by one `step` and
preserved forever after. -/
theorem C10_two_valued (g : List (List Char)) (rows cols : Nat)
    (hg : isGrid g rows cols) (h1 : 1 ≤ rows) (h2 : 1 ≤ cols)
    (n : Nat) (hn : 1 ≤ n) (g2 : List (List Char))
    (hstep : stepN n g = some g2) :
    (∀ r ∈ g2, ∀ ch ∈ r, ch = ALIVE ∨ ch = DEAD) ∧
    (∀ (row col : Nat) (c : Char), row < rows → col < cols →
      determine_cell_state g (row : Int) (col : Int) = some c →
      c = ALIVE ∨ c = DEAD) := by
  constructor
  · obtain ⟨m, rfl⟩ : ∃ m, n = m + 1 := ⟨n - 1, by omega⟩
    exact stepN_two_valued h1 h2 m g g2 hg hstep
  · intro row col c hr hc hdet
    rw [determine_cell_state_natEq hg h1 h2 row col hr hc] at hdet
    rw [← Option.some.inj hdet]
    exact nextUnit_two_valued _ _

theorem C10_two_valued_witness :
    (∀ r ∈ [[ALIVE, DEAD], [ALIVE, ALIVE]], ∀ ch ∈ r,
      ch = ALIVE ∨ ch = DEAD) ∧
    (∀ (row col : Nat) (c : Char), row < 2 → col < 2 →
      determine_cell_state mixedGrid (row : Int) (col : Int) = some c →
      c = ALIVE ∨ c = DEAD) :=
  C10_two_valued mixedGrid 2 2 (by decide) (by decide) (by decide) 1
    (by decide) [[ALIVE, DEAD], [ALIVE, ALIVE]] (by decide)

/-- C4: with `rows = 1`, wrap-around arithmetic alone makes the row
offsets `-1` and `+1` land back on the cell's own row, so an alive cell
at `(0, col)` contributes (at least) 2 to its own neighbor count — and
symmetrically for `cols = 1`; in particular, for the 1×1 grid whose
single cell is alive, all 8 offsets wrap back to the cell itself and the
count is exactly 8.  No special-casing: the same `count_alive_neighbors`
is used. -/
theorem C4_degenerate_wrap :
    (∀ (g : List (List Char)) (cols col : Nat), isGrid g 1 cols →
      0 < cols → col < cols → cellAt g 0 col = ALIVE →
      ∃ n, count_alive_neighbors g 0 (col : Int) = some n ∧ 2 ≤ n) ∧
    (∀ (g : List (List Char)) (rows row : Nat), isGrid g rows 1 →
      0 < rows → row < rows → cellAt g row 0 = ALIVE →
      ∃ n, count_alive_neighbors g (row : Int) 0 = some n ∧ 2 ≤ n) ∧
    count_alive_neighbors oneGrid 0 0 = some 8 := by
  refine ⟨fun g cols col hg hc hcol halive => ?_,
    fun g rows row hg hr hrow halive => ?_, by decide⟩
  · refine ⟨_, count_alive_neighbors_eq hg Nat.one_pos hc 0 (col : Int), ?_⟩
    rw [countAliveOffsets, allNine_filter]
    have m1 : ((0 : Int) - 1) % ((1 : Nat) : Int) = 0 := by decide
    have m2 : ((0 : Int) + 1) % ((1 : Nat) : Int) = 0 := by decide
    have m3 : ((col : Nat) : Int) % ((cols : Nat) : Int) = ((col : Nat) : Int) :=
      Int.emod_eq_of_lt (by omega) (by exact_mod_cast hcol)
    simp only [List.countP_cons, List.countP_nil, m1, m2, m3,
      Int.toNat_zero, Int.toNat_natCast]
    rw [beq_iff_eq.mpr halive]
    simp only [eq_self_iff_true, if_true]
    omega
  · refine ⟨_, count_alive_neighbors_eq hg hr Nat.one_pos (row : Int) 0, ?_⟩
    rw [countAliveOffsets, allNine_filter]
    have m1 : ((0 : Int) - 1) % ((1 : Nat) : Int) = 0 := by decide
    have m2 : ((0 : Int) + 1) % ((1 : Nat) : Int) = 0 := by decide
    have m3 : ((row : Nat) : Int) % ((rows : Nat) : Int) = ((row : Nat) : Int) :=
      Int.emod_eq_of_lt (by omega) (by exact_mod_cast hrow)
    simp only [List.countP_cons, List.countP_nil, m1, m2, m3,
      Int.toNat_zero, Int.toNat_natCast]
    rw [beq_iff_eq.mpr halive]
    simp only [eq_self_iff_true, if_true]
    omega

theorem C4_degenerate_wrap_witness :
    ∃ n, count_alive_neighbors [[ALIVE, DEAD]] 0 ((0 : Nat) : Int) = some n ∧
      2 ≤ n :=
  C4_degenerate_wrap.1 [[ALIVE, DEAD]] 2 0 (by decide) (by decide) (by decide)
    (by decide)
